import Mathlib

/-!
Verification development for the arpc message handler / router / correlator
(`handler.go`).  The Go code is shallowly embedded: pure routing and framing
logic becomes Lean functions; the side effects of `OnMessage` (logging, pool
release, handler invocation, session delivery) are recorded as an explicit
event trace; Go `panic` / `recover` is modelled with an `Outcome` value
threaded through an explicit list of deferred actions, mirroring Go's LIFO
`defer` semantics.

Helpers that live elsewhere in the repository (`memPut`, `ctxGet`/`ctxPut`,
`handlePanic`, the `Message` accessors, the head codec and the wire-format
constants) are modelled from the specification; each such definition carries a
doc comment saying so.
-/

namespace Arpc

/-- Modelled from the spec: `HeadLen` is the fixed header size in bytes
(spec section 6, wire format limits).  The concrete value is a process-wide
constant not visible in `handler.go`; a fixed representative value is used. -/
def HeadLen : Nat := 16

/-- Modelled from the spec: `MaxMethodLen` is the maximum method-name byte
length (spec section 6); the concrete value is not visible in `handler.go`. -/
def MaxMethodLen : Nat := 127

/-- Modelled from the spec: command kind `Request` (spec section 3,
Command kind).  The numeric codes are not visible in `handler.go`; the three
kinds only need to be distinct. -/
def CmdRequest : Nat := 1

/-- Modelled from the spec: command kind `Response`. -/
def CmdResponse : Nat := 2

/-- Modelled from the spec: command kind `Notify`. -/
def CmdNotify : Nat := 3

/-- Modelled from the spec (section 3 Wire Frame, section 4.1 codec): a
decoded message as seen by `OnMessage` through the accessors `Cmd()`,
`Seq()`, `IsAsync()`, `MethodLen()`, `Method()`.  The codec keeps the method
length field consistent with the method bytes, so `MethodLen` is represented
as the length of the decoded method string. -/
structure Message where
  cmd : Nat
  seq : Nat
  isAsync : Bool
  method : String
  body : List Nat
deriving DecidableEq

/-- `msg.MethodLen()`: length of the method name carried by the message. -/
def Message.methodLen (m : Message) : Nat := m.method.length

/-- Observable behaviour of a registered handler or async callback when it is
invoked: it either returns normally or panics.  This is the only aspect of
user code the dispatcher can see. -/
inductive HandlerBehavior where
  | returns
  | panics
deriving DecidableEq

/-- Events recorded by the dispatcher: diagnostics, pool traffic, handler and
callback invocation, and delivery of a response to a waiting session. -/
inductive Event where
  | logWarn (s : String)
  | logInfo (s : String)
  | memPutMsg
  | ctxGet
  | ctxPut
  | invokeHandler (method : String)
  | invokeAsync (seq : Nat)
  | sessionDeliver (seq : Nat)
  | panicCaught
deriving DecidableEq

/-- Whether a Go function body finished normally or is unwinding a panic. -/
inductive Outcome where
  | ok
  | panicked
deriving DecidableEq

/-- The two deferred actions registered by the dispatch branches of
`OnMessage`: the release closure `func() { ctxPut(ctx); memPut(msg) }` and
the deferred `handlePanic()`. -/
inductive DeferAction where
  | releaseCtxMsg
  | runHandlePanic
deriving DecidableEq

/-- Runs one deferred action given the current unwinding state.  The release
closure performs `ctxPut` and `memPut` and does not recover.  `handlePanic`
is modelled from the spec (section 4.6, panic isolation): it recovers an
in-flight panic, logging it, and is a no-op otherwise; its body is not in
`handler.go`. -/
def runDeferAction : DeferAction → Outcome → List Event × Outcome
  | .releaseCtxMsg, o => ([.ctxPut, .memPutMsg], o)
  | .runHandlePanic, .panicked => ([.panicCaught], .ok)
  | .runHandlePanic, .ok => ([], .ok)

/-- Runs a list of deferred actions, given in registration order, with Go's
LIFO discipline: actions registered later run first. -/
def runDefers : List DeferAction → Outcome → List Event × Outcome
  | [], o => ([], o)
  | d :: ds, o =>
    let r1 := runDefers ds o
    let r2 := runDeferAction d r1.2
    (r1.1 ++ r2.1, r2.2)

/-- Invoking a handler or callback: its own events are opaque to the
dispatcher; only whether it returns or panics is observable. -/
def runHandler : HandlerBehavior → List Event × Outcome
  | .returns => ([], .ok)
  | .panics => ([], .panicked)

/-- Route lookup in `h.routes`, a Go map from method name to handler. -/
def lookupRoute : List (String × HandlerBehavior) → String → Option HandlerBehavior
  | [], _ => none
  | (k, v) :: rest, m => if k = m then some v else lookupRoute rest m

/-- Lookup in an association list keyed by sequence number. -/
def lookupSeq : List (Nat × HandlerBehavior) → Nat → Option HandlerBehavior
  | [], _ => none
  | (k, v) :: rest, s => if k = s then some v else lookupSeq rest s

/-- Modelled from the spec (section 4.5, `takeAsync`): atomically take and
remove the callback registered for a sequence number; the underlying Go map
delete removes the (unique) entry for that key. -/
def takeAsync : List (Nat × HandlerBehavior) → Nat → Option HandlerBehavior × List (Nat × HandlerBehavior)
  | [], _ => (none, [])
  | (k, v) :: rest, s =>
    if k = s then (some v, rest)
    else
      let r := takeAsync rest s
      (r.1, (k, v) :: r.2)

/-- The per-connection correlator state `OnMessage` touches: which sequence
numbers have a waiting session, and the async-callback table.  Modelled from
the spec (section 3, Pending Call). -/
structure Client where
  sessions : List Nat
  asyncHandlers : List (Nat × HandlerBehavior)
deriving DecidableEq

/-- `c.getSession(seq)`: whether a waiting session exists for `seq`. -/
def Client.getSession (c : Client) (seq : Nat) : Bool :=
  c.sessions.contains seq

/-- `c.getAndDeleteAsyncHandler(seq)`: take-and-remove on the async table. -/
def Client.getAndDeleteAsyncHandler (c : Client) (seq : Nat) :
    Option HandlerBehavior × Client :=
  let r := takeAsync c.asyncHandlers seq
  (r.1, { c with asyncHandlers := r.2 })

/-- The `handler` struct fields used by the embedded operations.  The
`beforeRecv` / `beforeSend` hooks take the connection and return an error or
nil; since the connection is opaque here, a hook is modelled by its result on
this connection (`none` = no hook installed, `some none` = hook passes,
`some (some e)` = hook vetoes with error `e`). -/
structure HandlerState where
  beforeRecv : Option (Option String)
  beforeSend : Option (Option String)
  routes : List (String × HandlerBehavior)
deriving DecidableEq

/-- `OnMessage` (handler.go lines 188-242): classify the message by command
kind and drive routing, correlation, guarded invocation and pool
reclamation.  Returns the updated client state, the event trace, and the
final outcome (`.panicked` would mean a panic escaped `OnMessage`). -/
def OnMessage (h : HandlerState) (c : Client) (msg : Message) :
    Client × List Event × Outcome :=
  if msg.cmd = CmdRequest ∨ msg.cmd = CmdNotify then
    if msg.methodLen = 0 then
      (c, [.logWarn "OnMessage: invalid request message with 0 method length, dropped"], .ok)
    else
      match lookupRoute h.routes msg.method with
      | some hb =>
        let run := runHandler hb
        let fin := runDefers [.releaseCtxMsg, .runHandlePanic] run.2
        (c, [Event.ctxGet, Event.invokeHandler msg.method] ++ run.1 ++ fin.1, fin.2)
      | none =>
        (c, [.memPutMsg, .logWarn "OnMessage: invalid method, no handler"], .ok)
  else if msg.cmd = CmdResponse then
    if msg.methodLen > 0 then
      (c, [.logWarn "OnMessage: invalid response message with method length, dropped"], .ok)
    else if msg.isAsync = false then
      if c.getSession msg.seq then
        (c, [.sessionDeliver msg.seq], .ok)
      else
        (c, [.memPutMsg, .logWarn "OnMessage: session not exist or expired"], .ok)
    else
      match (c.getAndDeleteAsyncHandler msg.seq).1 with
      | some hb =>
        let c2 := (c.getAndDeleteAsyncHandler msg.seq).2
        let run := runHandler hb
        let fin := runDefers [.releaseCtxMsg, .runHandlePanic] run.2
        (c2, [Event.ctxGet, Event.invokeAsync msg.seq] ++ run.1 ++ fin.1, fin.2)
      | none =>
        (c, [.memPutMsg, .logWarn "OnMessage: async handler not exist or expired"], .ok)
  else
    (c, [.memPutMsg, .logInfo "OnMessage: invalid cmd"], .ok)

/-- `Handle` (handler.go lines 131-142): register a handler for a method.
Go `panic` at registration time is modelled as `Except.error`. -/
def Handle (h : HandlerState) (method : String) (cb : HandlerBehavior) :
    Except String HandlerState :=
  if method.length > MaxMethodLen then
    .error "invalid method length"
  else if (lookupRoute h.routes method).isSome then
    .error "handler exist for method"
  else
    .ok { h with routes := (method, cb) :: h.routes }

/-- `io.ReadFull`: read exactly `n` bytes from the byte source; on a short
read the available bytes are consumed and an error is reported (first
component `none`). -/
def readFull (n : Nat) (s : List Nat) : Option (List Nat) × List Nat :=
  if n ≤ s.length then (some (s.take n), s.drop n) else (none, [])

/-- Modelled from the spec: upper bound on the body length accepted by the
head codec (a length field inconsistent with the frame limits is a codec
error, spec section 4.1); the concrete value is not in `handler.go`. -/
def MaxBodyLen : Nat := 67108864

/-- Body length decoded from the first four head bytes, little-endian.
Modelled from the spec (section 3: the head encodes the total message length
in compact binary form, recoverable from the head alone). -/
def bodyLenOf (head : List Nat) : Nat :=
  match head with
  | a :: b :: c :: d :: _ => a + 256 * b + 65536 * c + 16777216 * d
  | _ => 0

/-- `c.Head.message()`: modelled from the spec (section 4.1 codec contract):
decode the total length from the fixed head and return a message buffer of
that total length whose first `HeadLen` bytes are the head (the body part is
still unfilled, represented by zero bytes), erroring on an oversized length
field. -/
def headMessage (head : List Nat) : Except String (List Nat) :=
  let bodyLen := bodyLenOf head
  if bodyLen > MaxBodyLen then .error "invalid body length"
  else .ok (head ++ List.replicate bodyLen 0)

/-- Result of `Recv`: the Go pair `(Message, error)` plus the bytes still
unread on the connection. -/
structure RecvResult where
  message : Option (List Nat)
  error : Option String
  rest : List Nat
deriving DecidableEq

/-- `Recv` (handler.go lines 144-167): run the pre-receive hook, read exactly
`HeadLen` bytes, decode the head, and if the total length exceeds `HeadLen`
read the remaining bytes into the same buffer. -/
def Recv (h : HandlerState) (s : List Nat) : RecvResult :=
  match h.beforeRecv with
  | some (some e) => ⟨none, some e, s⟩
  | _ =>
    match readFull HeadLen s with
    | (none, rest) => ⟨none, some "short read", rest⟩
    | (some head, rest) =>
      match headMessage head with
      | .error e => ⟨none, some e, rest⟩
      | .ok msg =>
        if msg.length > HeadLen then
          match readFull (msg.length - HeadLen) rest with
          | (none, rest2) => ⟨some msg, some "short read", rest2⟩
          | (some body, rest2) => ⟨some (head ++ body), none, rest2⟩
        else ⟨some msg, none, rest⟩

/-- The connection as a byte sink.  The transport is an external collaborator
(spec section 6); it is modelled as always accepting the write. -/
structure ConnState where
  written : List Nat
deriving DecidableEq

/-- `conn.Write(b)`: append the bytes, return the count and a nil error. -/
def connWrite (c : ConnState) (b : List Nat) : ConnState × Int × Option String :=
  ({ written := c.written ++ b }, (b.length : Int), none)

/-- `buffers.WriteTo(conn)` for `net.Buffers`: write each buffer in the
order supplied, returning the total byte count. -/
def buffersWriteTo (c : ConnState) : List (List Nat) → ConnState × Int × Option String
  | [] => (c, 0, none)
  | b :: bs =>
    let r1 := connWrite c b
    let r2 := buffersWriteTo r1.1 bs
    (r2.1, r1.2.1 + r2.2.1, r2.2.2)

/-- `Send` (handler.go lines 169-176): run the pre-send hook; on veto return
`-1` and the hook's error without writing; otherwise write the message. -/
def Send (h : HandlerState) (c : ConnState) (m : List Nat) :
    ConnState × Int × Option String :=
  match h.beforeSend with
  | some (some e) => (c, -1, some e)
  | _ => connWrite c m

/-- `SendN` (handler.go lines 178-186): run the pre-send hook; on veto return
`-1` and the hook's error without writing; otherwise write all buffers in
order. -/
def SendN (h : HandlerState) (c : ConnState) (buffers : List (List Nat)) :
    ConnState × Int × Option String :=
  match h.beforeSend with
  | some (some e) => (c, -1, some e)
  | _ => buffersWriteTo c buffers

/-- Events that release the message back to the pool (`memPut`) or transfer
its ownership to a waiting session (`session.done <- msg`). -/
def isRelease : Event → Bool
  | .memPutMsg => true
  | .sessionDeliver _ => true
  | _ => false

/-- Number of times a trace releases or transfers the message. -/
def releaseCount (evs : List Event) : Nat :=
  (evs.filter isRelease).length

/-- The two early-return drop paths of `OnMessage`: a Request/Notify with an
empty method, and a Response carrying a method name. -/
def isDropPath (m : Message) : Bool :=
  decide (((m.cmd = CmdRequest ∨ m.cmd = CmdNotify) ∧ m.methodLen = 0) ∨
    (m.cmd = CmdResponse ∧ 0 < m.methodLen))

/-- Events a panic-isolated invocation contributes after the user code ran:
nothing on a normal return, a recovered panic otherwise. -/
def guardEvents : HandlerBehavior → List Event
  | .returns => []
  | .panics => [.panicCaught]

/-- The events and outcome produced by a guarded invocation followed by its
two deferred actions: the deferred `handlePanic` absorbs a panic, then the
release closure returns the context and message to the pool. -/
theorem dispatchTail (hb : HandlerBehavior) :
    (runHandler hb).1 ++ (runDefers [.releaseCtxMsg, .runHandlePanic] (runHandler hb).2).1
        = guardEvents hb ++ [Event.ctxPut, Event.memPutMsg] ∧
      (runDefers [.releaseCtxMsg, .runHandlePanic] (runHandler hb).2).2 = Outcome.ok := by
  cases hb <;> exact ⟨rfl, rfl⟩

/-- C1: the claim as stated is false on the code.  A Request whose method
length is 0 takes the early drop path of `OnMessage` (handler.go line
192-195), which returns after logging without `memPut`: the trace contains
no release and no ownership transfer, so the message is not returned to the
pool by any owner on that exit path. -/
theorem c1_counterexample :
    releaseCount (OnMessage ⟨none, none, []⟩ ⟨[], []⟩
        ⟨CmdRequest, 0, false, "", []⟩).2.1 = 0 ∧
      releaseCount (OnMessage ⟨none, none, []⟩ ⟨[], []⟩
        ⟨CmdRequest, 0, false, "", []⟩).2.1 ≠ 1 := by
  exact ⟨rfl, by decide⟩

/-- C1 (amended): on every exit path of `OnMessage` the message is released
or ownership-transferred at most once — never double-freed — and exactly
once on every exit path except the two early drop-with-diagnostic paths (a
Request/Notify with method length 0, and a Response with nonzero method
length), where the message is neither released nor transferred. -/
theorem c1_ownership_amended (h : HandlerState) (c : Client) (m : Message) :
    releaseCount (OnMessage h c m).2.1 = if isDropPath m then 0 else 1 := by
  unfold OnMessage
  by_cases h1 : m.cmd = CmdRequest ∨ m.cmd = CmdNotify
  · by_cases h2 : m.methodLen = 0
    · have hd : isDropPath m = true := by
        simp [isDropPath, h1, h2]
      simp [h1, h2, hd, releaseCount, isRelease]
    · have hd : isDropPath m = false := by
        have hne : ¬ m.cmd = CmdResponse := by
          rcases h1 with h1 | h1 <;> rw [h1] <;> decide
        simp [isDropPath, h2, hne]
      cases hr : lookupRoute h.routes m.method with
      | some hb =>
        cases hb <;> simp [h1, h2, hr, hd, releaseCount, isRelease, runHandler,
          runDefers, runDeferAction]
      | none =>
        simp [h1, h2, hr, hd, releaseCount, isRelease]
  · by_cases h3 : m.cmd = CmdResponse
    · by_cases h4 : m.methodLen > 0
      · have hd : isDropPath m = true := by
          simp [isDropPath, h3, h4]
        simp [h3, h4, hd, releaseCount, isRelease, CmdRequest, CmdResponse, CmdNotify]
      · have hd : isDropPath m = false := by
          simp [isDropPath, h1, h4]
        cases ha : m.isAsync with
        | false =>
          cases hs : c.getSession m.seq <;>
            simp [h3, h4, ha, hs, hd, releaseCount, isRelease, CmdRequest,
              CmdResponse, CmdNotify]
        | true =>
          cases hr : (c.getAndDeleteAsyncHandler m.seq).1 with
          | some hb =>
            cases hb <;> simp [h3, h4, ha, hr, hd, releaseCount, isRelease,
              runHandler, runDefers, runDeferAction, CmdRequest, CmdResponse, CmdNotify]
          | none =>
            simp [h3, h4, ha, hr, hd, releaseCount, isRelease, CmdRequest,
              CmdResponse, CmdNotify]
    · have hd : isDropPath m = false := by
        simp [isDropPath, h1, h3]
      simp [h1, h3, hd, releaseCount, isRelease]

/-- C2: whenever `OnMessage` dispatches a Request/Notify to a registered
handler, or an async-flagged Response to a taken callback, the Dispatch
Context and the Message are released (`ctxPut`, `memPut`) after the
invocation on both outcomes — normal return or panic — through the deferred
release closure, and a panic inside the user code is caught by the deferred
`handlePanic` at the dispatch boundary, so `OnMessage` always finishes with
outcome `ok`. -/
theorem c2_release_and_panic_isolation (h : HandlerState) (c : Client) (m : Message)
    (hb : HandlerBehavior)
    (hd : ((m.cmd = CmdRequest ∨ m.cmd = CmdNotify) ∧ m.methodLen ≠ 0 ∧
            lookupRoute h.routes m.method = some hb) ∨
          (m.cmd = CmdResponse ∧ m.methodLen = 0 ∧ m.isAsync = true ∧
            (c.getAndDeleteAsyncHandler m.seq).1 = some hb)) :
    (OnMessage h c m).2.1 =
        [Event.ctxGet,
            if m.cmd = CmdResponse then Event.invokeAsync m.seq
            else Event.invokeHandler m.method] ++
          guardEvents hb ++ [Event.ctxPut, Event.memPutMsg] ∧
      (OnMessage h c m).2.2 = Outcome.ok := by
  rcases hd with ⟨h1, h2, h3⟩ | ⟨h1, h2, h3, h4⟩
  · have hne : ¬ m.cmd = CmdResponse := by
      rcases h1 with h1 | h1 <;> rw [h1] <;> decide
    cases hb <;> simp [OnMessage, h1, h2, h3, hne, runHandler, runDefers,
      runDeferAction, guardEvents]
  · cases hb <;> simp [OnMessage, h1, h2, h3, h4, runHandler, runDefers,
      runDeferAction, guardEvents, CmdRequest, CmdResponse, CmdNotify]

/-- C2 witness: an async-flagged Response whose taken callback panics; the
panic is recovered and the context and message are still released. -/
theorem c2_witness :
    (OnMessage ⟨none, none, []⟩ ⟨[], [(3, HandlerBehavior.panics)]⟩
          ⟨CmdResponse, 3, true, "", []⟩).2.1 =
        [Event.ctxGet,
            if (CmdResponse : Nat) = CmdResponse then Event.invokeAsync 3
            else Event.invokeHandler ""] ++
          guardEvents HandlerBehavior.panics ++ [Event.ctxPut, Event.memPutMsg] ∧
      (OnMessage ⟨none, none, []⟩ ⟨[], [(3, HandlerBehavior.panics)]⟩
          ⟨CmdResponse, 3, true, "", []⟩).2.2 = Outcome.ok :=
  c2_release_and_panic_isolation _ _ _ _ (Or.inr ⟨rfl, rfl, rfl, rfl⟩)

/-- C4: a Request/Notify with method length 0 is dropped with a diagnostic:
`OnMessage` only logs, leaves the client state unchanged, finishes normally,
and invokes no handler. -/
theorem c4_empty_method_dropped (h : HandlerState) (c : Client) (m : Message)
    (hcmd : m.cmd = CmdRequest ∨ m.cmd = CmdNotify) (hlen : m.methodLen = 0) :
    OnMessage h c m =
        (c, [Event.logWarn "OnMessage: invalid request message with 0 method length, dropped"],
          Outcome.ok) ∧
      ∀ s, Event.invokeHandler s ∉ (OnMessage h c m).2.1 := by
  have he : OnMessage h c m =
      (c, [Event.logWarn "OnMessage: invalid request message with 0 method length, dropped"],
        Outcome.ok) := by
    simp [OnMessage, hcmd, hlen]
  refine ⟨he, fun s => ?_⟩
  rw [he]
  simp

/-- C4 witness: a concrete Notify with an empty method is dropped. -/
theorem c4_witness :
    OnMessage ⟨none, none, [("", HandlerBehavior.returns)]⟩ ⟨[], []⟩
          ⟨CmdNotify, 9, false, "", [1]⟩ =
        (⟨[], []⟩, [Event.logWarn "OnMessage: invalid request message with 0 method length, dropped"],
          Outcome.ok) ∧
      ∀ s, Event.invokeHandler s ∉
        (OnMessage ⟨none, none, [("", HandlerBehavior.returns)]⟩ ⟨[], []⟩
          ⟨CmdNotify, 9, false, "", [1]⟩).2.1 :=
  c4_empty_method_dropped _ _ _ (Or.inr rfl) rfl

/-- C5: a Response with nonzero method length is dropped with a diagnostic:
`OnMessage` only logs, leaves the client state (sessions and async table)
unchanged, and emits no session delivery and no callback invocation. -/
theorem c5_response_with_method_dropped (h : HandlerState) (c : Client) (m : Message)
    (hcmd : m.cmd = CmdResponse) (hlen : 0 < m.methodLen) :
    OnMessage h c m =
        (c, [Event.logWarn "OnMessage: invalid response message with method length, dropped"],
          Outcome.ok) ∧
      ∀ q, Event.sessionDeliver q ∉ (OnMessage h c m).2.1 ∧
        Event.invokeAsync q ∉ (OnMessage h c m).2.1 := by
  have he : OnMessage h c m =
      (c, [Event.logWarn "OnMessage: invalid response message with method length, dropped"],
        Outcome.ok) := by
    simp [OnMessage, hcmd, hlen, CmdRequest, CmdResponse, CmdNotify]
  refine ⟨he, fun q => ?_⟩
  rw [he]
  simp

/-- C5 witness: a concrete Response carrying a method name is dropped. -/
theorem c5_witness :
    OnMessage ⟨none, none, []⟩ ⟨[4], [(4, HandlerBehavior.returns)]⟩
          ⟨CmdResponse, 4, false, "echo", []⟩ =
        (⟨[4], [(4, HandlerBehavior.returns)]⟩,
          [Event.logWarn "OnMessage: invalid response message with method length, dropped"],
          Outcome.ok) ∧
      ∀ q, Event.sessionDeliver q ∉
          (OnMessage ⟨none, none, []⟩ ⟨[4], [(4, HandlerBehavior.returns)]⟩
            ⟨CmdResponse, 4, false, "echo", []⟩).2.1 ∧
        Event.invokeAsync q ∉
          (OnMessage ⟨none, none, []⟩ ⟨[4], [(4, HandlerBehavior.returns)]⟩
            ⟨CmdResponse, 4, false, "echo", []⟩).2.1 :=
  c5_response_with_method_dropped _ _ _ rfl (by decide)

/-- Lookup misses when the key is absent from the association list. -/
theorem lookupSeq_eq_none (l : List (Nat × HandlerBehavior)) (s : Nat)
    (hs : s ∉ l.map Prod.fst) : lookupSeq l s = none := by
  induction l with
  | nil => rfl
  | cons p rest ih =>
    simp only [List.map_cons, List.mem_cons] at hs
    push_neg at hs
    cases p with
    | mk k v =>
      simp only [lookupSeq]
      rw [if_neg fun hk => hs.1 hk.symm]
      exact ih hs.2

/-- After a successful take-and-remove on a table with distinct keys, the
taken sequence number is gone from the table. -/
theorem takeAsync_lookup_none (l : List (Nat × HandlerBehavior)) (s : Nat)
    (hb : HandlerBehavior) (hnd : (l.map Prod.fst).Nodup)
    (ht : (takeAsync l s).1 = some hb) :
    lookupSeq (takeAsync l s).2 s = none := by
  induction l with
  | nil => simp [takeAsync] at ht
  | cons p rest ih =>
    cases p with
    | mk k v =>
      simp only [List.map_cons, List.nodup_cons] at hnd
      by_cases hk : k = s
      · subst hk
        simp only [takeAsync, if_pos rfl] at ht ⊢
        exact lookupSeq_eq_none rest k hnd.1
      · simp only [takeAsync, if_neg hk] at ht ⊢
        simp only [lookupSeq, if_neg hk]
        exact ih hnd.2 ht

/-- C6: resolution of a well-formed Response (zero method length).  Not
async: a live session receives the message (ownership transfer), a miss
releases the message and logs without erroring or panicking.  Async: a
registered callback is taken-and-removed (absent from the resulting table
when the table's keys are distinct, as they are in a Go map) and invoked
under the panic-isolating guard with context and message released after it;
a miss releases the message and logs. -/
theorem c6_response_resolution (h : HandlerState) (c : Client) (m : Message)
    (hcmd : m.cmd = CmdResponse) (hlen : m.methodLen = 0) :
    (m.isAsync = false → c.getSession m.seq = true →
        OnMessage h c m = (c, [Event.sessionDeliver m.seq], Outcome.ok))
  ∧ (m.isAsync = false → c.getSession m.seq = false →
        OnMessage h c m =
          (c, [Event.memPutMsg, Event.logWarn "OnMessage: session not exist or expired"],
            Outcome.ok))
  ∧ (∀ hb, m.isAsync = true → (c.getAndDeleteAsyncHandler m.seq).1 = some hb →
        OnMessage h c m = ((c.getAndDeleteAsyncHandler m.seq).2,
            [Event.ctxGet, Event.invokeAsync m.seq] ++ guardEvents hb ++
              [Event.ctxPut, Event.memPutMsg], Outcome.ok)
        ∧ ((c.asyncHandlers.map Prod.fst).Nodup →
            lookupSeq (OnMessage h c m).1.asyncHandlers m.seq = none))
  ∧ (m.isAsync = true → (c.getAndDeleteAsyncHandler m.seq).1 = none →
        OnMessage h c m =
          (c, [Event.memPutMsg, Event.logWarn "OnMessage: async handler not exist or expired"],
            Outcome.ok)) := by
  refine ⟨fun ha hs => ?_, fun ha hs => ?_, fun hb ha hr => ⟨?_, fun hnd => ?_⟩,
    fun ha hr => ?_⟩
  · simp [OnMessage, hcmd, hlen, ha, hs, CmdRequest, CmdResponse, CmdNotify]
  · simp [OnMessage, hcmd, hlen, ha, hs, CmdRequest, CmdResponse, CmdNotify]
  · cases hb <;> simp [OnMessage, hcmd, hlen, ha, hr, runHandler, runDefers,
      runDeferAction, guardEvents, CmdRequest, CmdResponse, CmdNotify]
  · have he : (OnMessage h c m).1 = (c.getAndDeleteAsyncHandler m.seq).2 := by
      cases hb <;> simp [OnMessage, hcmd, hlen, ha, hr, CmdRequest, CmdResponse, CmdNotify]
    rw [he]
    exact takeAsync_lookup_none c.asyncHandlers m.seq hb hnd hr
  · simp [OnMessage, hcmd, hlen, ha, hr, CmdRequest, CmdResponse, CmdNotify]

/-- C6 witness: a live session receives a concrete non-async Response, and
a concrete async Response consumes and removes its callback. -/
theorem c6_witness :
    OnMessage ⟨none, none, []⟩ ⟨[7], []⟩ ⟨CmdResponse, 7, false, "", [2]⟩ =
        (⟨[7], []⟩, [Event.sessionDeliver 7], Outcome.ok) ∧
      OnMessage ⟨none, none, []⟩ ⟨[], [(3, HandlerBehavior.returns)]⟩
          ⟨CmdResponse, 3, true, "", []⟩ =
        ((⟨[], [(3, HandlerBehavior.returns)]⟩ : Client).getAndDeleteAsyncHandler 3 |>.2,
          [Event.ctxGet, Event.invokeAsync 3] ++ guardEvents HandlerBehavior.returns ++
            [Event.ctxPut, Event.memPutMsg], Outcome.ok) ∧
      lookupSeq (OnMessage ⟨none, none, []⟩ ⟨[], [(3, HandlerBehavior.returns)]⟩
          ⟨CmdResponse, 3, true, "", []⟩).1.asyncHandlers 3 = none :=
  ⟨(c6_response_resolution ⟨none, none, []⟩ ⟨[7], []⟩
        ⟨CmdResponse, 7, false, "", [2]⟩ rfl rfl).1 rfl rfl,
    ((c6_response_resolution ⟨none, none, []⟩ ⟨[], [(3, HandlerBehavior.returns)]⟩
        ⟨CmdResponse, 3, true, "", []⟩ rfl rfl).2.2.1 HandlerBehavior.returns rfl rfl).1,
    ((c6_response_resolution ⟨none, none, []⟩ ⟨[], [(3, HandlerBehavior.returns)]⟩
        ⟨CmdResponse, 3, true, "", []⟩ rfl rfl).2.2.1 HandlerBehavior.returns rfl rfl).2
      (by decide)⟩

/-- C7: a Request/Notify with a non-empty method that has no registered
handler is released back to the pool with a diagnostic; no handler is
invoked, the client state is untouched, and no response event of any kind is
produced (the trace is exactly the release and the warning). -/
theorem c7_no_handler_release (h : HandlerState) (c : Client) (m : Message)
    (hcmd : m.cmd = CmdRequest ∨ m.cmd = CmdNotify) (hlen : m.methodLen ≠ 0)
    (hroute : lookupRoute h.routes m.method = none) :
    OnMessage h c m =
        (c, [Event.memPutMsg, Event.logWarn "OnMessage: invalid method, no handler"],
          Outcome.ok) ∧
      ∀ s, Event.invokeHandler s ∉ (OnMessage h c m).2.1 := by
  have he : OnMessage h c m =
      (c, [Event.memPutMsg, Event.logWarn "OnMessage: invalid method, no handler"],
        Outcome.ok) := by
    simp [OnMessage, hcmd, hlen, hroute]
  refine ⟨he, fun s => ?_⟩
  rw [he]
  simp

/-- C7 witness: a concrete Request for an unregistered method is released
and logged, with no handler invocation. -/
theorem c7_witness :
    OnMessage ⟨none, none, [("echo", HandlerBehavior.returns)]⟩ ⟨[], []⟩
          ⟨CmdRequest, 9, false, "log", []⟩ =
        (⟨[], []⟩, [Event.memPutMsg, Event.logWarn "OnMessage: invalid method, no handler"],
          Outcome.ok) ∧
      ∀ s, Event.invokeHandler s ∉
        (OnMessage ⟨none, none, [("echo", HandlerBehavior.returns)]⟩ ⟨[], []⟩
          ⟨CmdRequest, 9, false, "log", []⟩).2.1 :=
  c7_no_handler_release _ _ _ (Or.inl rfl) (by decide) (by decide)

/-- C3: the receive algorithm.  A pre-receive hook error is returned with no
bytes consumed; fewer than `HeadLen` available bytes is a failed head read
(no message, non-nil error); when the decoded total length exceeds `HeadLen`
but the remaining bytes are short, the read fails with a non-nil error; and
when enough bytes are available, `Recv` consumes exactly the total length
decoded from the head — head first, then the remaining bytes into the same
buffer — and returns it with a nil error. -/
theorem c3_recv_algorithm (h : HandlerState) (s : List Nat) :
    (∀ e, h.beforeRecv = some (some e) → Recv h s = ⟨none, some e, s⟩) ∧
    ((h.beforeRecv = none ∨ h.beforeRecv = some none) →
      (s.length < HeadLen →
        (Recv h s).message = none ∧ (Recv h s).error = some "short read") ∧
      (HeadLen ≤ s.length → bodyLenOf (s.take HeadLen) ≤ MaxBodyLen →
        s.length < HeadLen + bodyLenOf (s.take HeadLen) →
        (Recv h s).error = some "short read") ∧
      (HeadLen ≤ s.length → bodyLenOf (s.take HeadLen) ≤ MaxBodyLen →
        HeadLen + bodyLenOf (s.take HeadLen) ≤ s.length →
        Recv h s = ⟨some (s.take (HeadLen + bodyLenOf (s.take HeadLen))), none,
          s.drop (HeadLen + bodyLenOf (s.take HeadLen))⟩)) := by
  constructor
  · intro e he
    simp [Recv, he]
  · intro hpass
    refine ⟨fun hshort => ?_, fun hle hB hsl => ?_, fun hle hB hfull => ?_⟩
    · rcases hpass with hp | hp <;>
        simp [Recv, hp, readFull, Nat.not_le.mpr hshort]
    · have hB0 : 0 < bodyLenOf (s.take HeadLen) := by omega
      have hnot : ¬ bodyLenOf (s.take HeadLen) > MaxBodyLen := Nat.not_lt.mpr hB
      have hlen : (s.take HeadLen ++ List.replicate (bodyLenOf (s.take HeadLen)) 0).length
          = HeadLen + bodyLenOf (s.take HeadLen) := by
        simp [List.length_take, Nat.min_eq_left hle]
      have hlt : ¬ bodyLenOf (s.take HeadLen) ≤ s.length - HeadLen := by
        omega
      rcases hpass with hp | hp <;>
        simp [Recv, hp, readFull, hle, headMessage, hnot, hlen, hB0, hlt]
    · have hnot : ¬ bodyLenOf (s.take HeadLen) > MaxBodyLen := Nat.not_lt.mpr hB
      have hlen : (s.take HeadLen ++ List.replicate (bodyLenOf (s.take HeadLen)) 0).length
          = HeadLen + bodyLenOf (s.take HeadLen) := by
        simp [List.length_take, Nat.min_eq_left hle]
      by_cases hB0 : bodyLenOf (s.take HeadLen) = 0
      · rcases hpass with hp | hp <;>
          simp [Recv, hp, readFull, hle, headMessage, hnot, hlen, hB0]
      · have hpos : HeadLen < HeadLen + bodyLenOf (s.take HeadLen) := by omega
        have hge : bodyLenOf (s.take HeadLen) ≤ s.length - HeadLen := by
          omega
        have htake : s.take HeadLen ++ (s.drop HeadLen).take (bodyLenOf (s.take HeadLen))
            = s.take (HeadLen + bodyLenOf (s.take HeadLen)) :=
          (List.take_add s HeadLen (bodyLenOf (s.take HeadLen))).symm
        have hdrop : (s.drop HeadLen).drop (bodyLenOf (s.take HeadLen))
            = s.drop (HeadLen + bodyLenOf (s.take HeadLen)) := by
          rw [List.drop_drop]
        rcases hpass with hp | hp <;>
          simp [Recv, hp, readFull, hle, headMessage, hnot, hlen, hpos, hge,
            htake, hdrop]

/-- C3 witness: a hook veto reads nothing; a concrete 18-byte frame
(16-byte head declaring a 2-byte body, plus one extra byte on the wire) is
read exactly, leaving the extra byte unread. -/
theorem c3_witness :
    Recv ⟨some (some "limited"), none, []⟩ [1, 2, 3] = ⟨none, some "limited", [1, 2, 3]⟩ ∧
      Recv ⟨none, none, []⟩
          ([2, 0, 0, 0, 0, 0, 0, 0, 0, 0, 0, 0, 0, 0, 0, 0] ++ [7, 8, 9]) =
        ⟨some [2, 0, 0, 0, 0, 0, 0, 0, 0, 0, 0, 0, 0, 0, 0, 0, 7, 8], none, [9]⟩ := by
  constructor
  · exact (c3_recv_algorithm ⟨some (some "limited"), none, []⟩ [1, 2, 3]).1 "limited" rfl
  · have hmain := ((c3_recv_algorithm ⟨none, none, []⟩
        ([2, 0, 0, 0, 0, 0, 0, 0, 0, 0, 0, 0, 0, 0, 0, 0] ++ [7, 8, 9])).2
        (Or.inl rfl)).2.2 (by decide) (by decide) (by decide)
    rw [hmain]
    decide

/-- C8: `Handle` fails fast at registration time — a method longer than
`MaxMethodLen` and a method that is already registered both panic (modelled
as `Except.error`) immediately; otherwise the handler is stored under the
method name. -/
theorem c8_handle_fail_fast (h : HandlerState) (method : String) (cb : HandlerBehavior) :
    (MaxMethodLen < method.length →
        Handle h method cb = Except.error "invalid method length")
  ∧ (method.length ≤ MaxMethodLen → (lookupRoute h.routes method).isSome →
        Handle h method cb = Except.error "handler exist for method")
  ∧ (method.length ≤ MaxMethodLen → lookupRoute h.routes method = none →
        ∃ h2, Handle h method cb = Except.ok h2 ∧
          lookupRoute h2.routes method = some cb) := by
  refine ⟨fun hlong => ?_, fun hok hdup => ?_, fun hok hfree => ?_⟩
  · simp [Handle, hlong]
  · simp [Handle, Nat.not_lt.mpr hok, hdup]
  · refine ⟨{ h with routes := (method, cb) :: h.routes }, ?_, ?_⟩
    · simp [Handle, Nat.not_lt.mpr hok, hfree]
    · simp [lookupRoute]

/-- C8 witness: re-registering `"echo"` fails fast, while registering a
fresh short method succeeds and is routable. -/
theorem c8_witness :
    Handle ⟨none, none, [("echo", HandlerBehavior.returns)]⟩ "echo" HandlerBehavior.returns =
        Except.error "handler exist for method" ∧
      ∃ h2, Handle ⟨none, none, []⟩ "echo" HandlerBehavior.returns = Except.ok h2 ∧
        lookupRoute h2.routes "echo" = some HandlerBehavior.returns :=
  ⟨(c8_handle_fail_fast ⟨none, none, [("echo", HandlerBehavior.returns)]⟩ "echo"
      HandlerBehavior.returns).2.1 (by decide) (by decide),
    (c8_handle_fail_fast ⟨none, none, []⟩ "echo" HandlerBehavior.returns).2.2
      (by decide) (by decide)⟩

/-- Writing a list of buffers to the always-accepting sink appends them in
order and reports no error. -/
theorem buffersWriteTo_spec (bufs : List (List Nat)) (c : ConnState) :
    (buffersWriteTo c bufs).1 = ⟨c.written ++ bufs.flatten⟩ ∧
      (buffersWriteTo c bufs).2.2 = none := by
  induction bufs generalizing c with
  | nil => simp [buffersWriteTo]
  | cons b bs ih =>
    have := ih ⟨c.written ++ b⟩
    simp only [buffersWriteTo, connWrite] at *
    exact ⟨by rw [this.1]; simp [List.append_assoc], this.2⟩

/-- C9: with a pre-send hook set, a hook error is propagated by `Send` and
`SendN` with write count `-1` and nothing written to the connection; when
the hook passes (or none is set) the message bytes, respectively the
supplied buffers in order, are written to the connection. -/
theorem c9_send_hook (h : HandlerState) (c : ConnState) (m : List Nat)
    (bufs : List (List Nat)) :
    (∀ e, h.beforeSend = some (some e) →
        Send h c m = (c, -1, some e) ∧ SendN h c bufs = (c, -1, some e))
  ∧ ((h.beforeSend = none ∨ h.beforeSend = some none) →
        Send h c m = (⟨c.written ++ m⟩, (m.length : Int), none)
      ∧ (SendN h c bufs).1 = ⟨c.written ++ bufs.flatten⟩
      ∧ (SendN h c bufs).2.2 = none) := by
  constructor
  · intro e he
    constructor <;> simp [Send, SendN, he]
  · intro hpass
    have hw := buffersWriteTo_spec bufs c
    rcases hpass with hp | hp <;>
      exact ⟨by simp [Send, hp, connWrite], by simp [SendN, hp, hw.1],
        by simp [SendN, hp, hw.2]⟩

/-- C9 witness: a concrete vetoed send writes nothing and returns `-1`; with
no hook, the two supplied buffers are written in order. -/
theorem c9_witness :
    Send ⟨none, some (some "throttled"), []⟩ ⟨[9]⟩ [1, 2] = (⟨[9]⟩, -1, some "throttled") ∧
      SendN ⟨none, some (some "throttled"), []⟩ ⟨[9]⟩ [[1], [2]] =
        (⟨[9]⟩, -1, some "throttled") ∧
      (SendN ⟨none, none, []⟩ ⟨[9]⟩ [[1], [2, 3]]).1 = ⟨[9] ++ [[1], [2, 3]].flatten⟩ :=
  ⟨((c9_send_hook ⟨none, some (some "throttled"), []⟩ ⟨[9]⟩ [1, 2] [[1], [2]]).1
      "throttled" rfl).1,
    ((c9_send_hook ⟨none, some (some "throttled"), []⟩ ⟨[9]⟩ [1, 2] [[1], [2]]).1
      "throttled" rfl).2,
    ((c9_send_hook ⟨none, none, []⟩ ⟨[9]⟩ [1, 2] [[1], [2, 3]]).2 (Or.inl rfl)).2.1⟩

/-- C10: `Handle` accepts the empty method name — length 0 passes the
`MaxMethodLen` check — and registers the handler under `""`, yet such a
handler is unreachable: `OnMessage` drops every Request/Notify whose method
length is 0 before route lookup, and on the non-empty branch the looked-up
method cannot be `""`, so no trace of `OnMessage` ever contains an
invocation of the empty method. -/
theorem c10_empty_method_registrable_unreachable (h : HandlerState)
    (cb : HandlerBehavior) (hfree : lookupRoute h.routes "" = none) :
    (∃ h2, Handle h "" cb = Except.ok h2 ∧ lookupRoute h2.routes "" = some cb)
  ∧ ∀ (h2 : HandlerState) (c : Client) (m : Message),
      Event.invokeHandler "" ∉ (OnMessage h2 c m).2.1 := by
  constructor
  · refine ⟨{ h with routes := ("", cb) :: h.routes }, ?_, ?_⟩
    · simp [Handle, hfree, MaxMethodLen]
    · simp [lookupRoute]
  · intro h2 c m
    by_cases h1 : m.cmd = CmdRequest ∨ m.cmd = CmdNotify
    · by_cases hl : m.methodLen = 0
      · simp [OnMessage, h1, hl]
      · have hm : ¬ ("" = m.method) := by
          intro hq
          exact hl (by rw [Message.methodLen, ← hq]; rfl)
        cases hr : lookupRoute h2.routes m.method with
        | some hb =>
          cases hb <;> simp [OnMessage, h1, hl, hr, runHandler, runDefers,
            runDeferAction, hm]
        | none => simp [OnMessage, h1, hl, hr]
    · by_cases h3 : m.cmd = CmdResponse
      · by_cases h4 : m.methodLen > 0
        · simp [OnMessage, h1, h3, h4, CmdRequest, CmdResponse, CmdNotify]
        · cases ha : m.isAsync with
          | false =>
            cases hs : c.getSession m.seq <;>
              simp [OnMessage, h1, h3, h4, ha, hs, CmdRequest, CmdResponse, CmdNotify]
          | true =>
            cases hr : (c.getAndDeleteAsyncHandler m.seq).1 with
            | some hb =>
              cases hb <;> simp [OnMessage, h1, h3, h4, ha, hr, runHandler,
                runDefers, runDeferAction, CmdRequest, CmdResponse, CmdNotify]
            | none =>
              simp [OnMessage, h1, h3, h4, ha, hr, CmdRequest, CmdResponse, CmdNotify]
      · simp [OnMessage, h1, h3]

/-- C10 witness: on an empty route table the empty method registers fine,
and no `OnMessage` trace ever invokes the empty method. -/
theorem c10_witness :
    (∃ h2, Handle ⟨none, none, []⟩ "" HandlerBehavior.returns = Except.ok h2 ∧
        lookupRoute h2.routes "" = some HandlerBehavior.returns)
  ∧ ∀ (h2 : HandlerState) (c : Client) (m : Message),
      Event.invokeHandler "" ∉ (OnMessage h2 c m).2.1 :=
  c10_empty_method_registrable_unreachable ⟨none, none, []⟩ HandlerBehavior.returns rfl

end Arpc
